import Mathlib

/-!
Verification development for the baseline-report-app scanner (`src/cli.js`).

The JavaScript CLI walks parsed syntax trees of `.js` / `.css` files,
detects a fixed catalog of platform features with first-match-wins flags,
classifies each hit as `baseline` / `non-baseline` via the `web-features`
registry (with explicit overrides for the `nesting` and `subgrid` keys),
and aggregates the classified records into a JSON/CSV report.

The definitions below are a shallow embedding of that pipeline:
syntax trees become inductive types carrying exactly the attributes the
detector inspects, the mutable `detected` flag objects become a state
structure threaded through a fold, and the external parsers / registry /
serializers are modelled as parameters or explicit data.
-/

/-- Line extraction modelling the JavaScript idiom `loc?.start?.line || 1`:
a missing position (`none`) and the falsy value `0` both yield `1`. -/
def locLine : Option Nat → Nat
  | none => 1
  | some n => if n = 0 then 1 else n

/-- Line defaulting at the record-push site, modelling `feat.line || 1`. -/
def lineOr1 (n : Nat) : Nat := if n = 0 then 1 else n

/-- Raw occurrence as produced by a dialect matcher: display name,
registry feature key, and 1-based source line (`cli.js` pushes
`{ name, key, line }` objects). -/
structure Occ where
  name : String
  key : String
  line : Nat
deriving DecidableEq

/-! ## JS syntax model

Only the attributes `detectJSFeatures` reads are modelled: node type tags,
callee shapes, the `name` attribute (present exactly on identifiers),
argument kinds, `async` flags and source lines. -/

/-- Argument of a call expression: the detector only asks whether
`arguments[1].type === 'ObjectExpression'`. -/
inductive JSArg
  | objectLit
  | otherArg
deriving DecidableEq

/-- Receiver of a member-expression callee; `name` is defined exactly for
`Identifier` nodes, and `ArrayExpression` is distinguished for the
`Array.prototype.at` rule. -/
inductive JSObj
  | arrayLit
  | ident (name : String)
  | otherObj
deriving DecidableEq

/-- Callee of a call expression. `member` carries the receiver and the
property name (`none` for computed properties without a `name` field). -/
inductive JSCallee
  | ident (name : String)
  | member (obj : JSObj) (prop : Option String)
  | otherCallee
deriving DecidableEq

/-- Expression inside an `ExpressionStatement`; the detector only
inspects `CallExpression` shapes. -/
inductive JSExpr
  | call (callee : JSCallee) (args : List JSArg)
  | otherExpr
deriving DecidableEq

/-- Initializer of one variable declarator: `newE c` is a `NewExpression`
whose `callee.name` is `c` (`none` when the callee has no `name`), and
`otherInit` covers every other (or absent) initializer. -/
inductive JSDeclInit
  | newE (calleeName : Option String)
  | otherInit
deriving DecidableEq

/-- One declarator of a `VariableDeclaration` with its source line. -/
structure JSDeclarator where
  init : JSDeclInit
  line : Option Nat
deriving DecidableEq

/-- Top-level node of `ast.program.body` as case-analysed by
`detectJSFeatures` (lines 25-94 of `cli.js`). -/
inductive JSNode
  | newExpr (calleeName : Option String) (line : Option Nat)
  | varDecl (decls : List JSDeclarator) (line : Option Nat)
  | exprStmt (expr : JSExpr) (line : Option Nat)
  | funcDecl (isAsync : Bool) (line : Option Nat)
  | arrowFn (isAsync : Bool) (line : Option Nat)
  | awaitE (line : Option Nat)
  | otherNode (line : Option Nat)
deriving DecidableEq

/-- The `name` attribute of a callee (`callee.name` in JavaScript):
defined exactly for identifier callees. -/
def calleeName : JSCallee → Option String
  | .ident n => some n
  | _ => none

/-- The `name` attribute of a member-expression receiver (`object.name`). -/
def objName : JSObj → Option String
  | .ident n => some n
  | _ => none

/-- Whether the receiver is an `Identifier` node (`object.type === 'Identifier'`). -/
def objIsIdent : JSObj → Bool
  | .ident _ => true
  | _ => false

/-- Test `arguments.length > 1 && arguments[1].type === 'ObjectExpression'`. -/
def secondArgObject : List JSArg → Bool
  | _ :: .objectLit :: _ => true
  | _ => false

/-- Mutable found-flags of `detectJSFeatures`: `some l` models
`{ found: true, line: l }`, `none` models `{ found: false, line: null }`. -/
structure JSDetected where
  abortC : Option Nat := none
  fetch : Option Nat := none
  fetchInit : Option Nat := none
  allSettled : Option Nat := none
  asyncAwait : Option Nat := none
  iObs : Option Nat := none
  arrayAt : Option Nat := none
  weakRef : Option Nat := none
deriving DecidableEq

/-- Per-declarator update (the `forEach` body at `cli.js` lines 31-40).
The source runs two independent `if`s whose guards are mutually exclusive
(one initializer cannot name both constructors), so an `else if` cascade
is an exact translation. -/
def jsDeclStep (s : JSDetected) (d : JSDeclarator) : JSDetected :=
  if d.init = JSDeclInit.newE (some "AbortController") ∧ s.abortC = none then
    { s with abortC := some (locLine d.line) }
  else if d.init = JSDeclInit.newE (some "WeakRef") ∧ s.weakRef = none then
    { s with weakRef := some (locLine d.line) }
  else
    s

/-- Per-node update of `detectJSFeatures` (`cli.js` lines 25-94).
The source runs a sequence of independent `if`s over the same node; since
their guards are pairwise disjoint (they require different node types,
callee shapes or callee/property names), the single case split below is
an exact translation of that cascade. -/
def jsNodeStep (s : JSDetected) (n : JSNode) : JSDetected :=
  match n with
  | .newExpr c l =>
    if c = some "AbortController" ∧ s.abortC = none then
      { s with abortC := some (locLine l) }
    else if c = some "IntersectionObserver" ∧ s.iObs = none then
      { s with iObs := some (locLine l) }
    else if c = some "WeakRef" ∧ s.weakRef = none then
      { s with weakRef := some (locLine l) }
    else s
  | .varDecl ds _ => ds.foldl jsDeclStep s
  | .exprStmt (.call callee args) l =>
    match callee with
    | .ident nm =>
      if nm = "fetch" ∧ s.fetch = none then
        if secondArgObject args ∧ s.fetchInit = none then
          { s with fetch := some (locLine l), fetchInit := some (locLine l) }
        else
          { s with fetch := some (locLine l) }
      else s
    | .member obj prop =>
      if objName obj = some "Promise" ∧ prop = some "allSettled" ∧ s.allSettled = none then
        { s with allSettled := some (locLine l) }
      else if prop = some "at" ∧ (obj = JSObj.arrayLit ∨ objIsIdent obj = true) ∧ s.arrayAt = none then
        { s with arrayAt := some (locLine l) }
      else s
    | .otherCallee => s
  | .exprStmt .otherExpr _ => s
  | .funcDecl a l => if a = true ∧ s.asyncAwait = none then { s with asyncAwait := some (locLine l) } else s
  | .arrowFn a l => if a = true ∧ s.asyncAwait = none then { s with asyncAwait := some (locLine l) } else s
  | .awaitE l => if s.asyncAwait = none then { s with asyncAwait := some (locLine l) } else s
  | .otherNode _ => s

/-- Conditional singleton used by the emission blocks
(`if (detected.X.found) features.push({ name, key, line })`). -/
def optOcc : Option Nat → String → String → List Occ
  | some l, nm, k => [⟨nm, k, l⟩]
  | none, _, _ => []

/-- Emission block of `detectJSFeatures` (`cli.js` lines 96-103), in the
source's fixed push order. -/
def jsEmit (s : JSDetected) : List Occ :=
  optOcc s.abortC "AbortController" "aborting" ++
  optOcc s.fetch "fetch" "fetch" ++
  optOcc s.fetchInit "fetch with init options" "fetch" ++
  optOcc s.allSettled "Promise.allSettled" "promise-allsettled" ++
  optOcc s.asyncAwait "async/await" "async-await" ++
  optOcc s.iObs "IntersectionObserver" "intersection-observer" ++
  optOcc s.arrayAt "Array.prototype.at" "array-at" ++
  optOcc s.weakRef "WeakRef" "weak-references"

/-- The JS matcher `detectJSFeatures`: fold the found-flags over the
top-level statement list, then emit in catalog order. -/
def detectJSFeatures (body : List JSNode) : List Occ :=
  jsEmit (body.foldl jsNodeStep {})

/-! ## CSS syntax model

The stylesheet parser (`postcss.parse`) and the selector grammar
(`postcss-selector-parser`) are external; a rule is modelled as the walk
order of `walkRules`, carrying the outcome of parsing its selector
(either the pseudo-class tokens that `walkPseudos` would visit, or a
parse failure caught at `cli.js` line 136) and its declarations. -/

/-- One declaration visited by `rule.walkDecls`. -/
structure CSSDecl where
  prop : String
  value : String
  line : Option Nat
deriving DecidableEq

/-- Outcome of running the selector grammar on `rule.selector`:
`parsed ps` lists the pseudo-class tokens (value, source line) in walk
order; `parseFail` models `processSync` throwing, in which case no
pseudo token is visited. -/
inductive CSSSelector
  | parsed (pseudos : List (String × Option Nat))
  | parseFail (msg : String)
deriving DecidableEq

/-- One style rule visited by `root.walkRules`. -/
structure CSSRule where
  selector : CSSSelector
  decls : List CSSDecl
deriving DecidableEq

/-- Found-flags of `detectCSSFeatures` (`cli.js` lines 110-117). -/
structure CSSDetected where
  hasSel : Option Nat := none
  gap : Option Nat := none
  aspectRatio : Option Nat := none
  containerQ : Option Nat := none
  scrollSnap : Option Nat := none
  subgrid : Option Nat := none
deriving DecidableEq

/-- Whether `sub` occurs as a contiguous segment of the character list
(structural recursion, so concrete instances evaluate). -/
def hasInfixChars (sub : List Char) : List Char → Bool
  | [] => sub.isEmpty
  | c :: cs => sub.isPrefixOf (c :: cs) || hasInfixChars sub cs

/-- Substring test modelling JavaScript `value.includes(sub)`. -/
def containsSub (s sub : String) : Bool := hasInfixChars sub.data s.data

/-- Prefix test modelling JavaScript `String.prototype.startsWith`. -/
def strStartsWith (s pre : String) : Bool := pre.data.isPrefixOf s.data

/-- Suffix test modelling JavaScript `String.prototype.endsWith`
(used by the scan loop's extension checks). -/
def strEndsWith (s suffix : String) : Bool := suffix.data.isSuffixOf s.data

/-- Pseudo-class visit (`walkPseudos` callback, `cli.js` lines 129-134). -/
def cssPseudoStep (s : CSSDetected) (p : String × Option Nat) : CSSDetected :=
  if p.1 = ":has" ∧ s.hasSel = none then { s with hasSel := some (locLine p.2) } else s

/-- Declaration visit (`walkDecls` callback, `cli.js` lines 139-161).
The source runs five independent `if`s whose guards constrain the same
`decl.prop` in pairwise-incompatible ways, so the `else if` cascade is an
exact translation. -/
def cssDeclStep (s : CSSDetected) (d : CSSDecl) : CSSDetected :=
  if d.prop = "gap" ∧ s.gap = none then
    { s with gap := some (locLine d.line) }
  else if d.prop = "aspect-ratio" ∧ s.aspectRatio = none then
    { s with aspectRatio := some (locLine d.line) }
  else if (d.prop = "container-type" ∨ d.prop = "container-name" ∨ d.prop = "container") ∧ s.containerQ = none then
    { s with containerQ := some (locLine d.line) }
  else if strStartsWith d.prop "scroll-snap" = true ∧ s.scrollSnap = none then
    { s with scrollSnap := some (locLine d.line) }
  else if d.prop = "grid-template-columns" ∧ containsSub d.value "subgrid" = true ∧ s.subgrid = none then
    { s with subgrid := some (locLine d.line) }
  else
    s

/-- Rule visit (`walkRules` callback, `cli.js` lines 125-162): walk the
parsed selector's pseudo tokens unless selector parsing failed (the
failure is only logged), then always walk the declarations. -/
def cssRuleStep (s : CSSDetected) (r : CSSRule) : CSSDetected :=
  let s1 := match r.selector with
    | .parsed ps => ps.foldl cssPseudoStep s
    | .parseFail _ => s
  r.decls.foldl cssDeclStep s1

/-- Emission block of `detectCSSFeatures` (`cli.js` lines 164-169). -/
def cssEmit (s : CSSDetected) : List Occ :=
  optOcc s.hasSel ":has" "nesting" ++
  optOcc s.gap "gap" "flexbox-gap" ++
  optOcc s.aspectRatio "aspect-ratio" "aspect-ratio" ++
  optOcc s.containerQ "container-queries" "container-queries" ++
  optOcc s.scrollSnap "scroll-snap" "scroll-snap" ++
  optOcc s.subgrid "subgrid" "subgrid"

/-- The CSS matcher `detectCSSFeatures` on a successfully parsed
stylesheet (an unparsable stylesheet throws before any rule is walked
and is handled by the caller as a skipped file). -/
def detectCSSFeatures (rules : List CSSRule) : List Occ :=
  cssEmit (rules.foldl cssRuleStep {})

/-! ## Classifier and scan pipeline -/

/-- Classified record pushed into `results`
(`{ name, status, file, line }`, `cli.js` line 234). -/
structure Record where
  name : String
  status : String
  file : String
  line : Nat
deriving DecidableEq

/-- Classification of one feature key (`cli.js` line 233). The registry
argument models the optional chain `webFeatures.features[key]?.status?.baseline`
of the external `web-features` package: `none` covers both a key absent
from the registry and an entry without that field. The `nesting` /
`subgrid` override is tested before the registry lookup. -/
def classifyStatus (reg : String → Option String) (key : String) : String :=
  if key = "nesting" ∨ key = "subgrid" then "baseline"
  else if reg key = some "high" then "baseline" else "non-baseline"

/-- Build the pushed record from one occurrence (`cli.js` lines 231-235). -/
def classifyOcc (reg : String → Option String) (file : String) (feat : Occ) : Record :=
  ⟨feat.name, classifyStatus reg feat.key, file, lineOr1 feat.line⟩

/-- Feature-name filter (`cli.js` lines 227-229): applied only when a
filter value is present (the empty string is falsy in JavaScript) and is
neither `js` nor `css`; it keeps occurrences whose lowercased display
name equals the lowercased filter. -/
def nameFilterApply (filter : Option String) (feats : List Occ) : List Occ :=
  match filter with
  | some f =>
    if f ≠ "" ∧ f ≠ "js" ∧ f ≠ "css" then
      feats.filter (fun feat => feat.name.toLower == f.toLower)
    else feats
  | none => feats

/-- Outcome of reading and dialect-parsing one discovered file; the file
system and the external parsers are black boxes, so the scan loop is
modelled over their outcomes: a read error (`cli.js` line 200), a parse
error (lines 211, 218), or a parsed tree of the matching dialect. -/
inductive FileOutcome
  | readErr (msg : String)
  | parseErr (msg : String)
  | jsAst (body : List JSNode)
  | cssAst (rules : List CSSRule)
deriving DecidableEq

/-- Extension dispatch of the scan loop (`cli.js` lines 207-225):
`some feats` when the file has a matching extension and its parse
succeeded, `none` when the file is skipped (read error, parse error, or
unsupported extension). -/
def dialectDetect (file : String) (oc : FileOutcome) : Option (List Occ) :=
  if strEndsWith file ".js" then
    match oc with
    | .jsAst body => some (detectJSFeatures body)
    | _ => none
  else if strEndsWith file ".css" then
    match oc with
    | .cssAst rules => some (detectCSSFeatures rules)
    | _ => none
  else none

/-- Per-file body of the scan loop (`cli.js` lines 192-239): file-type
filter, extension dispatch to a matcher, feature-name filter, then
classification of each kept occurrence into a record. -/
def processFile (reg : String → Option String) (filter : Option String)
    (file : String) (oc : FileOutcome) : List Record :=
  if filter = some "js" ∧ strEndsWith file ".js" = false then []
  else if filter = some "css" ∧ strEndsWith file ".css" = false then []
  else
    match dialectDetect file oc with
    | none => []
    | some detected => (nameFilterApply filter detected).map (classifyOcc reg file)

/-- The scan loop: the `results` accumulator receives each file's records
in discovery order. -/
def scanFiles (reg : String → Option String) (filter : Option String)
    (files : List (String × FileOutcome)) : List Record :=
  files.flatMap (fun fp => processFile reg filter fp.1 fp.2)

/-- Report summary (`cli.js` lines 242-245). -/
structure Summary where
  baseline : Nat
  non_baseline : Nat
deriving DecidableEq

/-- The JSON report object (`cli.js` line 246). -/
structure Output where
  summary : Summary
  features : List Record
deriving DecidableEq

/-- Summary construction (`cli.js` lines 242-245). -/
def buildSummary (results : List Record) : Summary :=
  ⟨(results.filter (fun r => r.status == "baseline")).length,
   (results.filter (fun r => r.status == "non-baseline")).length⟩

/-- Report construction (`cli.js` line 246). -/
def buildOutput (results : List Record) : Output :=
  ⟨buildSummary results, results⟩

/-! ## Report serialization

`JSON.stringify` and the `json2csv` serializer are external; they are
modelled here at the character level following the report shapes of the
spec (CSV: header row `name,status,file,line`, one quoted row per
occurrence; JSON: summary object plus features array). -/

/-- Decimal digit list of `n / 10 ^ i ...` built with explicit fuel
(the first argument strictly decreases); models JavaScript decimal
number-to-string for the `line` field. -/
def natCharsAux : Nat → Nat → List Char
  | 0, _ => []
  | _ + 1, 0 => []
  | fuel + 1, n + 1 => natCharsAux fuel ((n + 1) / 10) ++ [Char.ofNat (48 + (n + 1) % 10)]

/-- Decimal representation of a natural number as characters. -/
def natChars (n : Nat) : List Char := if n = 0 then ['0'] else natCharsAux n n

/-- Quote-escaping of the external CSV serializer: an embedded double
quote is doubled. -/
def escChars : List Char → List Char
  | [] => []
  | c :: cs => (if c = '"' then ['"', '"'] else [c]) ++ escChars cs

/-- One quoted CSV field. -/
def quoteChars (s : String) : List Char := '"' :: (escChars s.data ++ ['"'])

/-- The CSV header row for the fields `['name', 'status', 'file', 'line']`
(`cli.js` line 253); the serializer quotes header names. -/
def csvHeaderChars : List Char :=
  quoteChars "name" ++ (',' :: (quoteChars "status" ++ (',' :: (quoteChars "file" ++ (',' :: quoteChars "line")))))

/-- One CSV data row: the three string fields quoted, the line number
unquoted. -/
def csvRowChars (r : Record) : List Char :=
  quoteChars r.name ++ (',' :: (quoteChars r.status ++ (',' :: (quoteChars r.file ++ (',' :: natChars r.line)))))

/-- Join a list of rows with a separator character (newline for CSV). -/
def joinSep (sep : Char) : List (List Char) → List Char
  | [] => []
  | [x] => x
  | x :: xs => x ++ sep :: joinSep sep xs

/-- The CSV serialization of the results list (`cli.js` lines 252-256):
header row then one row per record. -/
def csvExport (results : List Record) : String :=
  ⟨joinSep '\n' (csvHeaderChars :: results.map csvRowChars)⟩

/-- JSON rendering of one record, modelling `JSON.stringify`. -/
def jsonOfRecord (r : Record) : String :=
  "\x7b \"name\": \"" ++ r.name ++ "\", \"status\": \"" ++ r.status ++
    "\", \"file\": \"" ++ r.file ++ "\", \"line\": " ++ ⟨natChars r.line⟩ ++ " \x7d"

/-- JSON rendering of the report object (`cli.js` line 259). -/
def jsonExport (o : Output) : String :=
  "\x7b \"summary\": \x7b \"baseline\": " ++ (⟨natChars o.summary.baseline⟩ : String) ++
    ", \"non_baseline\": " ++ (⟨natChars o.summary.non_baseline⟩ : String) ++
    " \x7d, \"features\": [" ++ String.intercalate ", " (o.features.map jsonOfRecord) ++ "] \x7d"

/-- Report phase (`cli.js` lines 241-268): given the accumulated results,
the `--output` option and the report format, returns the file write the
program performs (`none` when nothing is written) paired with the leading
console message. A non-empty result list prints the report and, when an
output path is present, writes CSV (of `results`) or JSON (of the report
object); an empty result list only prints the informational message. -/
def reportPhase (results : List Record) (outputPath : Option String) (fmt : String) :
    Option (String × String) × String :=
  if results.length > 0 then
    match outputPath with
    | some p =>
      (some (p, if fmt = "csv" then csvExport results else jsonExport (buildOutput results)),
        "Detected features:")
    | none => (none, "Detected features:")
  else (none, "No supported features detected.")

/-! ## CSV re-parsing (for the round-trip property)

The round-trip comparison parses the produced CSV text back into
(name, status, file, line) tuples, the line kept as its textual decimal
form ("ignoring numeric type representation"). -/

/-- Parse one quoted field: consume a leading quote, take the content up
to the next quote, consume it, return content and remainder. -/
def parseQuotedField : List Char → Option (List Char × List Char)
  | '"' :: rest =>
    match rest.dropWhile (fun c => c != '"') with
    | '"' :: rest2 => some (rest.takeWhile (fun c => c != '"'), rest2)
    | _ => none
  | _ => none

/-- Consume a separating comma. -/
def expectComma : List Char → Option (List Char)
  | ',' :: r => some r
  | _ => none

/-- Parse one CSV data row into a (name, status, file, line) tuple; the
final (numeric) field is the unquoted remainder of the row. -/
def parseRowChars (cs : List Char) : Option (String × String × String × String) :=
  (parseQuotedField cs).bind fun p1 =>
    (expectComma p1.2).bind fun r1 =>
      (parseQuotedField r1).bind fun p2 =>
        (expectComma p2.2).bind fun r2 =>
          (parseQuotedField r2).bind fun p3 =>
            (expectComma p3.2).bind fun r3 =>
              some (⟨p1.1⟩, ⟨p2.1⟩, ⟨p3.1⟩, ⟨r3⟩)

/-- Split a character list at every occurrence of a separator. -/
def splitOnChar (sep : Char) : List Char → List (List Char)
  | [] => [[]]
  | c :: cs =>
    if c = sep then [] :: splitOnChar sep cs
    else
      match splitOnChar sep cs with
      | [] => [[c]]
      | h :: t => (c :: h) :: t

/-- Parse every data row, failing if any row is malformed. -/
def parseRows : List (List Char) → Option (List (String × String × String × String))
  | [] => some []
  | r :: rs =>
    match parseRowChars r, parseRows rs with
    | some t, some ts => some (t :: ts)
    | _, _ => none

/-- Parse a full CSV document: split into lines, check the header row,
parse the data rows. -/
def parseCSV (s : String) : Option (List (String × String × String × String)) :=
  match splitOnChar '\n' s.data with
  | [] => none
  | h :: rows => if h = csvHeaderChars then parseRows rows else none

/-- The (name, status, file, line) tuple of a record with the line in its
textual decimal form, as it appears in the JSON features array. -/
def recordTuple (r : Record) : String × String × String × String :=
  (r.name, r.status, r.file, ⟨natChars r.line⟩)

/-- A field value that CSV line-splitting and the quoted-field grammar
handle exactly: no embedded double quote and no newline. -/
def okField (s : String) : Prop := '"' ∉ s.data ∧ '\n' ∉ s.data

instance (s : String) : Decidable (okField s) := by
  unfold okField
  infer_instance

/-! ## Catalogs and ordering/counting helpers -/

/-- Display names of the JS rule table in emission order
(`cli.js` lines 96-103). -/
def jsCatalogNames : List String :=
  ["AbortController", "fetch", "fetch with init options", "Promise.allSettled",
   "async/await", "IntersectionObserver", "Array.prototype.at", "WeakRef"]

/-- Feature keys of the JS rule table in emission order; note the two
rules sharing the key `fetch`. -/
def jsCatalogKeys : List String :=
  ["aborting", "fetch", "fetch", "promise-allsettled",
   "async-await", "intersection-observer", "array-at", "weak-references"]

/-- Display names of the CSS rule table in emission order
(`cli.js` lines 164-169). -/
def cssCatalogNames : List String :=
  [":has", "gap", "aspect-ratio", "container-queries", "scroll-snap", "subgrid"]

/-- Feature keys of the CSS rule table in emission order. -/
def cssCatalogKeys : List String :=
  ["nesting", "flexbox-gap", "aspect-ratio", "container-queries", "scroll-snap", "subgrid"]

/-- A declarator whose initializer constructs `AbortController`
(the shape the variable-initializer rule matches). -/
def declAbortNew (d : JSDeclarator) : Bool :=
  d.init == JSDeclInit.newE (some "AbortController")

/-- Number of detectable `AbortController` constructions in one
top-level node: a top-level `NewExpression` naming it, or its
variable-declarator initializers naming it. -/
def nodeAbortCtors : JSNode → Nat
  | .newExpr c _ => if c = some "AbortController" then 1 else 0
  | .varDecl ds _ => (ds.filter declAbortNew).length
  | _ => 0

/-- Number of detectable `AbortController` constructions in a file. -/
def countAbortCtor (body : List JSNode) : Nat :=
  (body.map nodeAbortCtors).sum

/-! ## First-match monotonicity relations -/

/-- Order on found-flags: a recorded line is preserved. -/
def oleN (a b : Option Nat) : Prop := ∀ l, a = some l → b = some l

/-- Pointwise flag order on the JS detection state. -/
def jsLe (s t : JSDetected) : Prop :=
  oleN s.abortC t.abortC ∧ oleN s.fetch t.fetch ∧ oleN s.fetchInit t.fetchInit ∧
  oleN s.allSettled t.allSettled ∧ oleN s.asyncAwait t.asyncAwait ∧
  oleN s.iObs t.iObs ∧ oleN s.arrayAt t.arrayAt ∧ oleN s.weakRef t.weakRef

/-- Pointwise flag order on the CSS detection state. -/
def cssLe (s t : CSSDetected) : Prop :=
  oleN s.hasSel t.hasSel ∧ oleN s.gap t.gap ∧ oleN s.aspectRatio t.aspectRatio ∧
  oleN s.containerQ t.containerQ ∧ oleN s.scrollSnap t.scrollSnap ∧ oleN s.subgrid t.subgrid

/-! ## Emission lemmas -/

theorem mem_optOcc {o : Occ} {x : Option Nat} {nm k : String} :
    o ∈ optOcc x nm k ↔ ∃ l, x = some l ∧ o = ⟨nm, k, l⟩ := by
  cases x <;> simp [optOcc]

theorem optOcc_map_name_sublist (x : Option Nat) (nm k : String) :
    List.Sublist ((optOcc x nm k).map Occ.name) [nm] := by
  cases x
  · exact List.nil_sublist _
  · exact List.Sublist.refl _

theorem optOcc_map_key_sublist (x : Option Nat) (nm k : String) :
    List.Sublist ((optOcc x nm k).map Occ.key) [k] := by
  cases x
  · exact List.nil_sublist _
  · exact List.Sublist.refl _

theorem jsEmit_names_sublist (s : JSDetected) :
    List.Sublist ((jsEmit s).map Occ.name) jsCatalogNames := by
  show List.Sublist _ (["AbortController"] ++ ["fetch"] ++ ["fetch with init options"] ++
    ["Promise.allSettled"] ++ ["async/await"] ++ ["IntersectionObserver"] ++
    ["Array.prototype.at"] ++ ["WeakRef"])
  simp only [jsEmit, List.map_append]
  exact ((((((((optOcc_map_name_sublist ..).append
    (optOcc_map_name_sublist ..)).append
    (optOcc_map_name_sublist ..)).append
    (optOcc_map_name_sublist ..)).append
    (optOcc_map_name_sublist ..)).append
    (optOcc_map_name_sublist ..)).append
    (optOcc_map_name_sublist ..)).append
    (optOcc_map_name_sublist ..))

theorem jsEmit_keys_sublist (s : JSDetected) :
    List.Sublist ((jsEmit s).map Occ.key) jsCatalogKeys := by
  show List.Sublist _ (["aborting"] ++ ["fetch"] ++ ["fetch"] ++
    ["promise-allsettled"] ++ ["async-await"] ++ ["intersection-observer"] ++
    ["array-at"] ++ ["weak-references"])
  simp only [jsEmit, List.map_append]
  exact ((((((((optOcc_map_key_sublist ..).append
    (optOcc_map_key_sublist ..)).append
    (optOcc_map_key_sublist ..)).append
    (optOcc_map_key_sublist ..)).append
    (optOcc_map_key_sublist ..)).append
    (optOcc_map_key_sublist ..)).append
    (optOcc_map_key_sublist ..)).append
    (optOcc_map_key_sublist ..))

theorem cssEmit_names_sublist (s : CSSDetected) :
    List.Sublist ((cssEmit s).map Occ.name) cssCatalogNames := by
  show List.Sublist _ ([":has"] ++ ["gap"] ++ ["aspect-ratio"] ++
    ["container-queries"] ++ ["scroll-snap"] ++ ["subgrid"])
  simp only [cssEmit, List.map_append]
  exact ((((((optOcc_map_name_sublist ..).append
    (optOcc_map_name_sublist ..)).append
    (optOcc_map_name_sublist ..)).append
    (optOcc_map_name_sublist ..)).append
    (optOcc_map_name_sublist ..)).append
    (optOcc_map_name_sublist ..))

theorem cssEmit_keys_sublist (s : CSSDetected) :
    List.Sublist ((cssEmit s).map Occ.key) cssCatalogKeys := by
  show List.Sublist _ (["nesting"] ++ ["flexbox-gap"] ++ ["aspect-ratio"] ++
    ["container-queries"] ++ ["scroll-snap"] ++ ["subgrid"])
  simp only [cssEmit, List.map_append]
  exact ((((((optOcc_map_key_sublist ..).append
    (optOcc_map_key_sublist ..)).append
    (optOcc_map_key_sublist ..)).append
    (optOcc_map_key_sublist ..)).append
    (optOcc_map_key_sublist ..)).append
    (optOcc_map_key_sublist ..))

theorem mem_jsEmit {s : JSDetected} {o : Occ} :
    o ∈ jsEmit s ↔
      (∃ l, s.abortC = some l ∧ o = ⟨"AbortController", "aborting", l⟩) ∨
      (∃ l, s.fetch = some l ∧ o = ⟨"fetch", "fetch", l⟩) ∨
      (∃ l, s.fetchInit = some l ∧ o = ⟨"fetch with init options", "fetch", l⟩) ∨
      (∃ l, s.allSettled = some l ∧ o = ⟨"Promise.allSettled", "promise-allsettled", l⟩) ∨
      (∃ l, s.asyncAwait = some l ∧ o = ⟨"async/await", "async-await", l⟩) ∨
      (∃ l, s.iObs = some l ∧ o = ⟨"IntersectionObserver", "intersection-observer", l⟩) ∨
      (∃ l, s.arrayAt = some l ∧ o = ⟨"Array.prototype.at", "array-at", l⟩) ∨
      (∃ l, s.weakRef = some l ∧ o = ⟨"WeakRef", "weak-references", l⟩) := by
  simp [jsEmit, mem_optOcc, List.mem_append]

theorem mem_cssEmit {s : CSSDetected} {o : Occ} :
    o ∈ cssEmit s ↔
      (∃ l, s.hasSel = some l ∧ o = ⟨":has", "nesting", l⟩) ∨
      (∃ l, s.gap = some l ∧ o = ⟨"gap", "flexbox-gap", l⟩) ∨
      (∃ l, s.aspectRatio = some l ∧ o = ⟨"aspect-ratio", "aspect-ratio", l⟩) ∨
      (∃ l, s.containerQ = some l ∧ o = ⟨"container-queries", "container-queries", l⟩) ∨
      (∃ l, s.scrollSnap = some l ∧ o = ⟨"scroll-snap", "scroll-snap", l⟩) ∨
      (∃ l, s.subgrid = some l ∧ o = ⟨"subgrid", "subgrid", l⟩) := by
  simp [cssEmit, mem_optOcc, List.mem_append]

/-! ## Monotonicity of the first-match folds -/

theorem oleN_refl (a : Option Nat) : oleN a a := fun _ h => h

theorem oleN_none (b : Option Nat) : oleN none b := by
  intro l h
  cases h

theorem jsLe_refl (s : JSDetected) : jsLe s s :=
  ⟨oleN_refl _, oleN_refl _, oleN_refl _, oleN_refl _,
   oleN_refl _, oleN_refl _, oleN_refl _, oleN_refl _⟩

theorem jsLe_trans {a b c : JSDetected} (h1 : jsLe a b) (h2 : jsLe b c) : jsLe a c := by
  obtain ⟨x1, x2, x3, x4, x5, x6, x7, x8⟩ := h1
  obtain ⟨y1, y2, y3, y4, y5, y6, y7, y8⟩ := h2
  exact ⟨fun l h => y1 l (x1 l h), fun l h => y2 l (x2 l h), fun l h => y3 l (x3 l h),
    fun l h => y4 l (x4 l h), fun l h => y5 l (x5 l h), fun l h => y6 l (x6 l h),
    fun l h => y7 l (x7 l h), fun l h => y8 l (x8 l h)⟩

theorem cssLe_refl (s : CSSDetected) : cssLe s s :=
  ⟨oleN_refl _, oleN_refl _, oleN_refl _, oleN_refl _, oleN_refl _, oleN_refl _⟩

theorem cssLe_trans {a b c : CSSDetected} (h1 : cssLe a b) (h2 : cssLe b c) : cssLe a c := by
  obtain ⟨x1, x2, x3, x4, x5, x6⟩ := h1
  obtain ⟨y1, y2, y3, y4, y5, y6⟩ := h2
  exact ⟨fun l h => y1 l (x1 l h), fun l h => y2 l (x2 l h), fun l h => y3 l (x3 l h),
    fun l h => y4 l (x4 l h), fun l h => y5 l (x5 l h), fun l h => y6 l (x6 l h)⟩

theorem foldl_le_of_step {σ α : Type} (le : σ → σ → Prop)
    (hrefl : ∀ s, le s s) (htrans : ∀ {a b c}, le a b → le b c → le a c)
    (step : σ → α → σ) (hstep : ∀ s a, le s (step s a)) :
    ∀ (l : List α) (s : σ), le s (l.foldl step s) := by
  intro l
  induction l with
  | nil => intro s; exact hrefl s
  | cons a t ih => intro s; exact htrans (hstep s a) (ih (step s a))

theorem jsDeclStep_le (s : JSDetected) (d : JSDeclarator) : jsLe s (jsDeclStep s d) := by
  unfold jsDeclStep
  split_ifs with h1 h2 <;>
    refine ⟨?_, ?_, ?_, ?_, ?_, ?_, ?_, ?_⟩ <;>
    first
      | exact oleN_refl _
      | (first
          | (rw [h1.2]; exact oleN_none _)
          | (rw [h2.2]; exact oleN_none _))

theorem jsNodeStep_le (s : JSDetected) (n : JSNode) : jsLe s (jsNodeStep s n) := by
  rcases n with c | ds | e | a | a | l | l
  case varDecl =>
    exact foldl_le_of_step jsLe jsLe_refl jsLe_trans jsDeclStep jsDeclStep_le ds s
  case exprStmt l =>
    rcases e with ⟨callee, args⟩ | _
    · rcases callee with nm | ⟨obj, prop⟩ | _ <;>
        · simp only [jsNodeStep]
          first
          | exact jsLe_refl s
          | split_ifs with h1 h2 <;>
            refine ⟨?_, ?_, ?_, ?_, ?_, ?_, ?_, ?_⟩ <;>
            first
              | exact oleN_refl _
              | (first
                  | (rw [h1.2]; exact oleN_none _)
                  | (rw [h1.2.2]; exact oleN_none _)
                  | (rw [h2.2]; exact oleN_none _)
                  | (rw [h2.2.2]; exact oleN_none _))
    · exact jsLe_refl s
  all_goals
    simp only [jsNodeStep]
    first
    | exact jsLe_refl s
    | split_ifs with h1 h2 h3 <;>
      refine ⟨?_, ?_, ?_, ?_, ?_, ?_, ?_, ?_⟩ <;>
      first
        | exact oleN_refl _
        | (first
            | (rw [h1.2]; exact oleN_none _)
            | (rw [h2.2]; exact oleN_none _)
            | (rw [h3.2]; exact oleN_none _)
            | (rw [h1]; exact oleN_none _))

theorem cssPseudoStep_le (s : CSSDetected) (p : String × Option Nat) :
    cssLe s (cssPseudoStep s p) := by
  unfold cssPseudoStep
  split_ifs with h1 <;>
    refine ⟨?_, ?_, ?_, ?_, ?_, ?_⟩ <;>
    first
      | exact oleN_refl _
      | (rw [h1.2]; exact oleN_none _)

theorem cssDeclStep_le (s : CSSDetected) (d : CSSDecl) : cssLe s (cssDeclStep s d) := by
  unfold cssDeclStep
  split_ifs with h1 h2 h3 h4 h5 <;>
    refine ⟨?_, ?_, ?_, ?_, ?_, ?_⟩ <;>
    first
      | exact oleN_refl _
      | (rw [h1.2]; exact oleN_none _)
      | (rw [h2.2]; exact oleN_none _)
      | (rw [h3.2]; exact oleN_none _)
      | (rw [h4.2]; exact oleN_none _)
      | (rw [h5.2.2]; exact oleN_none _)

theorem cssRuleStep_le (s : CSSDetected) (r : CSSRule) : cssLe s (cssRuleStep s r) := by
  unfold cssRuleStep
  refine cssLe_trans (b := match r.selector with
    | .parsed ps => ps.foldl cssPseudoStep s
    | .parseFail _ => s) ?_ ?_
  · rcases r.selector with ps | m
    · exact foldl_le_of_step cssLe cssLe_refl cssLe_trans cssPseudoStep cssPseudoStep_le ps s
    · exact cssLe_refl s
  · exact foldl_le_of_step cssLe cssLe_refl cssLe_trans cssDeclStep cssDeclStep_le r.decls _

theorem foldl_jsNodeStep_le (body : List JSNode) (s : JSDetected) :
    jsLe s (body.foldl jsNodeStep s) :=
  foldl_le_of_step jsLe jsLe_refl jsLe_trans jsNodeStep jsNodeStep_le body s

theorem foldl_cssRuleStep_le (rules : List CSSRule) (s : CSSDetected) :
    cssLe s (rules.foldl cssRuleStep s) :=
  foldl_le_of_step cssLe cssLe_refl cssLe_trans cssRuleStep cssRuleStep_le rules s

theorem jsEmit_mono {s t : JSDetected} (h : jsLe s t) {o : Occ}
    (ho : o ∈ jsEmit s) : o ∈ jsEmit t := by
  obtain ⟨h1, h2, h3, h4, h5, h6, h7, h8⟩ := h
  rw [mem_jsEmit] at ho ⊢
  rcases ho with ⟨l, hl, rfl⟩ | ⟨l, hl, rfl⟩ | ⟨l, hl, rfl⟩ | ⟨l, hl, rfl⟩ |
    ⟨l, hl, rfl⟩ | ⟨l, hl, rfl⟩ | ⟨l, hl, rfl⟩ | ⟨l, hl, rfl⟩
  · exact Or.inl ⟨l, h1 l hl, rfl⟩
  · exact Or.inr (Or.inl ⟨l, h2 l hl, rfl⟩)
  · exact Or.inr (Or.inr (Or.inl ⟨l, h3 l hl, rfl⟩))
  · exact Or.inr (Or.inr (Or.inr (Or.inl ⟨l, h4 l hl, rfl⟩)))
  · exact Or.inr (Or.inr (Or.inr (Or.inr (Or.inl ⟨l, h5 l hl, rfl⟩))))
  · exact Or.inr (Or.inr (Or.inr (Or.inr (Or.inr (Or.inl ⟨l, h6 l hl, rfl⟩)))))
  · exact Or.inr (Or.inr (Or.inr (Or.inr (Or.inr (Or.inr (Or.inl ⟨l, h7 l hl, rfl⟩))))))
  · exact Or.inr (Or.inr (Or.inr (Or.inr (Or.inr (Or.inr (Or.inr ⟨l, h8 l hl, rfl⟩))))))

theorem cssEmit_mono {s t : CSSDetected} (h : cssLe s t) {o : Occ}
    (ho : o ∈ cssEmit s) : o ∈ cssEmit t := by
  obtain ⟨h1, h2, h3, h4, h5, h6⟩ := h
  rw [mem_cssEmit] at ho ⊢
  rcases ho with ⟨l, hl, rfl⟩ | ⟨l, hl, rfl⟩ | ⟨l, hl, rfl⟩ | ⟨l, hl, rfl⟩ |
    ⟨l, hl, rfl⟩ | ⟨l, hl, rfl⟩
  · exact Or.inl ⟨l, h1 l hl, rfl⟩
  · exact Or.inr (Or.inl ⟨l, h2 l hl, rfl⟩)
  · exact Or.inr (Or.inr (Or.inl ⟨l, h3 l hl, rfl⟩))
  · exact Or.inr (Or.inr (Or.inr (Or.inl ⟨l, h4 l hl, rfl⟩)))
  · exact Or.inr (Or.inr (Or.inr (Or.inr (Or.inl ⟨l, h5 l hl, rfl⟩))))
  · exact Or.inr (Or.inr (Or.inr (Or.inr (Or.inr ⟨l, h6 l hl, rfl⟩))))

/-! ## Counting lemmas -/

theorem filter_key_length (L : List Occ) (k : String) :
    (L.filter (fun o => o.key == k)).length = (L.map Occ.key).count k := by
  rw [← List.countP_eq_length_filter]
  show L.countP (fun o => o.key == k) = (L.map Occ.key).countP (fun x => x == k)
  rw [List.countP_map]
  rfl

theorem count_jsCatalogKeys_le (k : String) (hk : k ≠ "fetch") :
    jsCatalogKeys.count k ≤ 1 := by
  have he : jsCatalogKeys =
      ["aborting"] ++ ["fetch", "fetch"] ++
        ["promise-allsettled", "async-await", "intersection-observer",
         "array-at", "weak-references"] := rfl
  rw [he, List.count_append, List.count_append]
  have h2 : List.count k ["fetch", "fetch"] = 0 := by
    rw [List.count_eq_zero]
    simp [hk]
  have h6 : List.count k (["aborting"] ++
      ["promise-allsettled", "async-await", "intersection-observer",
       "array-at", "weak-references"]) ≤ 1 :=
    List.nodup_iff_count_le_one.1 (by decide) k
  rw [List.count_append] at h6
  omega

theorem count_jsCatalogKeys_le_two (k : String) : jsCatalogKeys.count k ≤ 2 := by
  by_cases hk : k = "fetch"
  · subst hk; decide
  · exact Nat.le_trans (count_jsCatalogKeys_le k hk) (by omega)

theorem count_cssCatalogKeys_le (k : String) : cssCatalogKeys.count k ≤ 1 :=
  List.nodup_iff_count_le_one.1 (by decide) k

/-! ## Characterization of the AbortController flag -/

theorem jsDeclStep_abortC (s : JSDetected) (d : JSDeclarator) :
    ((jsDeclStep s d).abortC ≠ none ↔ s.abortC ≠ none ∨ declAbortNew d = true) := by
  unfold jsDeclStep
  by_cases hd : d.init = JSDeclInit.newE (some "AbortController") <;>
    split_ifs with h1 h2 <;> simp_all [declAbortNew]

theorem foldl_jsDeclStep_abortC (ds : List JSDeclarator) (s : JSDetected) :
    ((ds.foldl jsDeclStep s).abortC ≠ none ↔
      s.abortC ≠ none ∨ 0 < (ds.filter declAbortNew).length) := by
  induction ds generalizing s with
  | nil => simp
  | cons d t ih =>
    simp only [List.foldl_cons, List.filter_cons]
    rw [ih, jsDeclStep_abortC]
    by_cases hd : declAbortNew d = true <;> simp [hd] <;> tauto

theorem jsNodeStep_abortC (s : JSDetected) (n : JSNode) :
    ((jsNodeStep s n).abortC ≠ none ↔ s.abortC ≠ none ∨ 0 < nodeAbortCtors n) := by
  rcases n with c | ⟨ds, l⟩ | e | a | a | l | l
  case newExpr l =>
    simp only [jsNodeStep, nodeAbortCtors]
    by_cases hc : c = some "AbortController" <;> split_ifs with h1 h2 h3 <;> simp_all
  case varDecl =>
    simpa only [jsNodeStep, nodeAbortCtors] using foldl_jsDeclStep_abortC ds s
  case exprStmt l =>
    rcases e with ⟨callee, args⟩ | _
    · rcases callee with nm | ⟨obj, prop⟩ | _ <;>
        (simp only [jsNodeStep, nodeAbortCtors]) <;> (try split_ifs) <;> simp
    · simp [jsNodeStep, nodeAbortCtors]
  all_goals
    simp only [jsNodeStep, nodeAbortCtors]
    (try split_ifs) <;> simp

theorem foldl_jsNodeStep_abortC (body : List JSNode) (s : JSDetected) :
    ((body.foldl jsNodeStep s).abortC ≠ none ↔
      s.abortC ≠ none ∨ 0 < countAbortCtor body) := by
  induction body generalizing s with
  | nil => simp [countAbortCtor]
  | cons n t ih =>
    simp only [List.foldl_cons]
    rw [ih, jsNodeStep_abortC]
    have hc : countAbortCtor (n :: t) = nodeAbortCtors n + countAbortCtor t := by
      simp [countAbortCtor]
    rw [hc]
    by_cases ha : s.abortC = none <;> simp [ha] <;> omega

/-! ## Preservation of the fetch flags -/

theorem jsDeclStep_fetch_frame (s : JSDetected) (d : JSDeclarator) :
    (jsDeclStep s d).fetch = s.fetch ∧ (jsDeclStep s d).fetchInit = s.fetchInit := by
  unfold jsDeclStep
  split_ifs <;> exact ⟨rfl, rfl⟩

theorem foldl_jsDeclStep_fetch_frame (ds : List JSDeclarator) (s : JSDetected) :
    (ds.foldl jsDeclStep s).fetch = s.fetch ∧
      (ds.foldl jsDeclStep s).fetchInit = s.fetchInit := by
  induction ds generalizing s with
  | nil => exact ⟨rfl, rfl⟩
  | cons d t ih =>
    simp only [List.foldl_cons]
    obtain ⟨e1, e2⟩ := jsDeclStep_fetch_frame s d
    obtain ⟨f1, f2⟩ := ih (jsDeclStep s d)
    exact ⟨by rw [f1, e1], by rw [f2, e2]⟩

theorem jsNodeStep_fetch_preserved (s : JSDetected) (n : JSNode)
    (hf : s.fetch ≠ none) :
    (jsNodeStep s n).fetch ≠ none ∧ (jsNodeStep s n).fetchInit = s.fetchInit := by
  rcases n with c | ⟨ds, l⟩ | e | a | a | l | l
  case varDecl =>
    obtain ⟨f1, f2⟩ := foldl_jsDeclStep_fetch_frame ds s
    simp only [jsNodeStep]
    rw [f1, f2]
    exact ⟨hf, rfl⟩
  case exprStmt l =>
    rcases e with ⟨callee, args⟩ | _
    · rcases callee with nm | ⟨obj, prop⟩ | _ <;>
        (simp only [jsNodeStep]) <;> (try split_ifs with h1 h2) <;>
        first
          | exact absurd h1.2 hf
          | exact ⟨hf, rfl⟩
          | exact ⟨hf, trivial⟩
    · exact ⟨hf, rfl⟩
  all_goals
    simp only [jsNodeStep]
    (try split_ifs) <;> first | exact ⟨hf, rfl⟩ | exact ⟨hf, trivial⟩

theorem foldl_fetch_preserved (rest : List JSNode) (s : JSDetected)
    (hf : s.fetch ≠ none) (hi : s.fetchInit = none) :
    (rest.foldl jsNodeStep s).fetchInit = none := by
  induction rest generalizing s with
  | nil => exact hi
  | cons n t ih =>
    obtain ⟨p1, p2⟩ := jsNodeStep_fetch_preserved s n hf
    exact ih (jsNodeStep s n) p1 (p2.trans hi)

/-! ## Claim theorems (first group) -/

/-- C3: for every occurrence whose feature key is `nesting` or `subgrid`,
the classifier outputs status `baseline` regardless of what the registry
reports for that key (the override takes precedence over the lookup). -/
theorem claim_C3 (reg : String → Option String) (file : String) (feat : Occ)
    (h : feat.key = "nesting" ∨ feat.key = "subgrid") :
    (classifyOcc reg file feat).status = "baseline" := by
  rcases h with h | h <;> simp [classifyOcc, classifyStatus, h]

/-- Witness for C3 at a registry that reports a low tier for `nesting`. -/
theorem claim_C3_witness :
    (("nesting" : String) = "nesting" ∨ ("nesting" : String) = "subgrid") ∧
      (classifyOcc (fun _ => some "low") "a.css" ⟨":has", "nesting", 3⟩).status = "baseline" :=
  ⟨Or.inl rfl, claim_C3 (fun _ => some "low") "a.css" ⟨":has", "nesting", 3⟩ (Or.inl rfl)⟩

/-- C4: for every occurrence whose feature key is not covered by an
override, the classifier outputs `baseline` iff the registry reports the
highest (`high`) tier for that key, and `non-baseline` in every other
case, including a key absent from the registry. -/
theorem claim_C4 (reg : String → Option String) (file : String) (feat : Occ)
    (h1 : feat.key ≠ "nesting") (h2 : feat.key ≠ "subgrid") :
    ((classifyOcc reg file feat).status = "baseline" ↔ reg feat.key = some "high") ∧
    ((classifyOcc reg file feat).status = "non-baseline" ↔ reg feat.key ≠ some "high") := by
  simp only [classifyOcc, classifyStatus, h1, h2, false_or, if_false, or_self]
  constructor
  · constructor
    · intro hb
      by_contra hr
      simp [if_neg hr] at hb
    · intro hr
      simp [hr]
  · constructor
    · intro hb hr
      simp [hr] at hb
    · intro hr
      simp [if_neg hr]

/-- Witness for C4: the key `array-at` with an empty registry is
classified `non-baseline`, and is `baseline` exactly when the registry
would report `high`. -/
theorem claim_C4_witness :
    (("array-at" : String) ≠ "nesting") ∧ (("array-at" : String) ≠ "subgrid") ∧
      ((classifyOcc (fun _ => none) "a.js" ⟨"Array.prototype.at", "array-at", 2⟩).status
          = "non-baseline" ↔ (none : Option String) ≠ some "high") :=
  ⟨by decide, by decide,
    (claim_C4 (fun _ => none) "a.js" ⟨"Array.prototype.at", "array-at", 2⟩
      (by decide) (by decide)).2⟩

/-! ## Claim theorems (second group) -/

/-- C1 counterexample: a single top-level `fetch(url, { ... })` statement
makes the JS matcher emit two occurrences carrying the feature key
`fetch` (the plain `fetch` rule and the `fetch with init options` rule
share that key), refuting "at most one occurrence per feature key". -/
theorem claim_C1_counterexample :
    ¬ (((detectJSFeatures [JSNode.exprStmt (JSExpr.call (JSCallee.ident "fetch")
        [JSArg.otherArg, JSArg.objectLit]) (some 1)]).filter
          (fun o => o.key == "fetch")).length ≤ 1) := by decide

/-- C1 (amended): per file each detection rule (display name) emits at
most one occurrence, and an occurrence, once recorded, is preserved
unchanged by any later statements (first match wins, later lines
discarded); every feature key appears at most once per file except
`fetch`, which is shared by two rules and can appear at most twice. -/
theorem claim_C1_amended :
    (∀ body : List JSNode, ((detectJSFeatures body).map Occ.name).Nodup) ∧
    (∀ (body : List JSNode) (k : String), k ≠ "fetch" →
      ((detectJSFeatures body).filter (fun o => o.key == k)).length ≤ 1) ∧
    (∀ (body : List JSNode) (k : String),
      ((detectJSFeatures body).filter (fun o => o.key == k)).length ≤ 2) ∧
    (∀ (body extra : List JSNode) (o : Occ),
      o ∈ detectJSFeatures body → o ∈ detectJSFeatures (body ++ extra)) ∧
    (∀ rules : List CSSRule, ((detectCSSFeatures rules).map Occ.name).Nodup) ∧
    (∀ (rules : List CSSRule) (k : String),
      ((detectCSSFeatures rules).filter (fun o => o.key == k)).length ≤ 1) ∧
    (∀ (rules extra : List CSSRule) (o : Occ),
      o ∈ detectCSSFeatures rules → o ∈ detectCSSFeatures (rules ++ extra)) := by
  refine ⟨?_, ?_, ?_, ?_, ?_, ?_, ?_⟩
  · intro body
    exact List.Nodup.sublist (jsEmit_names_sublist _) (by decide)
  · intro body k hk
    rw [detectJSFeatures, filter_key_length]
    exact Nat.le_trans ((jsEmit_keys_sublist _).count_le k) (count_jsCatalogKeys_le k hk)
  · intro body k
    rw [detectJSFeatures, filter_key_length]
    exact Nat.le_trans ((jsEmit_keys_sublist _).count_le k) (count_jsCatalogKeys_le_two k)
  · intro body extra o ho
    rw [detectJSFeatures, List.foldl_append]
    exact jsEmit_mono (foldl_jsNodeStep_le extra _) ho
  · intro rules
    exact List.Nodup.sublist (cssEmit_names_sublist _) (by decide)
  · intro rules k
    rw [detectCSSFeatures, filter_key_length]
    exact Nat.le_trans ((cssEmit_keys_sublist _).count_le k) (count_cssCatalogKeys_le k)
  · intro rules extra o ho
    rw [detectCSSFeatures, List.foldl_append]
    exact cssEmit_mono (foldl_cssRuleStep_le extra _) ho

/-- Witness for the amended C1 at the key `aborting` on a concrete file. -/
theorem claim_C1_witness :
    (("aborting" : String) ≠ "fetch") ∧
    ((detectJSFeatures [JSNode.newExpr (some "AbortController") (some 3)]).filter
        (fun o => o.key == "aborting")).length ≤ 1 :=
  ⟨by decide, claim_C1_amended.2.1 _ "aborting" (by decide)⟩

/-- C2: a file containing exactly one `AbortController` construction in
either detectable form (top-level `NewExpression` or variable-declarator
initializer) yields exactly one occurrence with key `aborting`; and the
concrete scenario `const c = new AbortController();` on line 1 yields
exactly `[{name: AbortController, key: aborting, line: 1}]`. -/
theorem claim_C2 :
    (∀ body : List JSNode, countAbortCtor body = 1 →
      ((detectJSFeatures body).filter (fun o => o.key == "aborting")).length = 1) ∧
    detectJSFeatures
        [JSNode.varDecl [⟨JSDeclInit.newE (some "AbortController"), some 1⟩] (some 1)] =
      [⟨"AbortController", "aborting", 1⟩] := by
  constructor
  · intro body h
    have habort : (body.foldl jsNodeStep ({} : JSDetected)).abortC ≠ none :=
      (foldl_jsNodeStep_abortC body {}).2 (Or.inr (by omega))
    obtain ⟨l, hl⟩ := Option.ne_none_iff_exists'.1 habort
    have hmem : (⟨"AbortController", "aborting", l⟩ : Occ) ∈
        detectJSFeatures body :=
      mem_jsEmit.2 (Or.inl ⟨l, hl, rfl⟩)
    have hup : ((detectJSFeatures body).filter (fun o => o.key == "aborting")).length ≤ 1 := by
      rw [detectJSFeatures, filter_key_length]
      exact Nat.le_trans ((jsEmit_keys_sublist _).count_le _)
        (count_jsCatalogKeys_le _ (by decide))
    have hlow : 0 < ((detectJSFeatures body).filter (fun o => o.key == "aborting")).length :=
      List.length_pos_of_mem (List.mem_filter.2 ⟨hmem, by simp⟩)
    omega
  · rfl

/-- Witness for C2 on the standalone-construction form. -/
theorem claim_C2_witness :
    countAbortCtor [JSNode.newExpr (some "AbortController") (some 4)] = 1 ∧
    ((detectJSFeatures [JSNode.newExpr (some "AbortController") (some 4)]).filter
        (fun o => o.key == "aborting")).length = 1 :=
  ⟨by decide, claim_C2.1 _ (by decide)⟩

/-- C8: once a prefix of the file has triggered the plain `fetch`
detection without recording init options, no later top-level statement
(in particular a later `fetch` call carrying an object-literal second
argument) can produce a `fetch with init options` occurrence, because
the guard of the nested init-options check requires the `fetch` flag to
be unset. -/
theorem claim_C8 (pre rest : List JSNode)
    (hf : (pre.foldl jsNodeStep ({} : JSDetected)).fetch ≠ none)
    (hi : (pre.foldl jsNodeStep ({} : JSDetected)).fetchInit = none) :
    ∀ o ∈ detectJSFeatures (pre ++ rest), o.name ≠ "fetch with init options" := by
  intro o ho
  rw [detectJSFeatures, List.foldl_append] at ho
  have hnone : (rest.foldl jsNodeStep (pre.foldl jsNodeStep ({} : JSDetected))).fetchInit = none :=
    foldl_fetch_preserved rest _ hf hi
  rw [mem_jsEmit] at ho
  rcases ho with ⟨l, hl, rfl⟩ | ⟨l, hl, rfl⟩ | ⟨l, hl, rfl⟩ | ⟨l, hl, rfl⟩ |
    ⟨l, hl, rfl⟩ | ⟨l, hl, rfl⟩ | ⟨l, hl, rfl⟩ | ⟨l, hl, rfl⟩
  · simp
  · simp
  · rw [hnone] at hl; cases hl
  · simp
  · simp
  · simp
  · simp
  · simp

/-- Witness for C8: a bare `fetch(u);` on line 1 followed by
`fetch(u, { ... });` on line 2 yields only the plain fetch occurrence. -/
theorem claim_C8_witness :
    (([JSNode.exprStmt (JSExpr.call (JSCallee.ident "fetch") []) (some 1)].foldl
        jsNodeStep ({} : JSDetected)).fetch ≠ none) ∧
    (([JSNode.exprStmt (JSExpr.call (JSCallee.ident "fetch") []) (some 1)].foldl
        jsNodeStep ({} : JSDetected)).fetchInit = none) ∧
    ((⟨"fetch", "fetch", 1⟩ : Occ) ∈ detectJSFeatures
        ([JSNode.exprStmt (JSExpr.call (JSCallee.ident "fetch") []) (some 1)] ++
         [JSNode.exprStmt (JSExpr.call (JSCallee.ident "fetch")
            [JSArg.otherArg, JSArg.objectLit]) (some 2)])) ∧
    (⟨"fetch", "fetch", 1⟩ : Occ).name ≠ "fetch with init options" :=
  ⟨by decide, by decide, by decide,
    claim_C8 [JSNode.exprStmt (JSExpr.call (JSCallee.ident "fetch") []) (some 1)]
      [JSNode.exprStmt (JSExpr.call (JSCallee.ident "fetch")
        [JSArg.otherArg, JSArg.objectLit]) (some 2)]
      (by decide) (by decide) _ (by decide)⟩

/-- C9: each matcher's per-file output is ordered by the fixed rule
catalog (its display-name sequence is a sublist of the catalog order for
the dialect), not by source position; consequently the emitted line
numbers within one file need not be monotonically increasing, as shown
by a file whose output lines are `[2, 1]`. -/
theorem claim_C9 :
    (∀ body : List JSNode,
      List.Sublist ((detectJSFeatures body).map Occ.name) jsCatalogNames) ∧
    (∀ rules : List CSSRule,
      List.Sublist ((detectCSSFeatures rules).map Occ.name) cssCatalogNames) ∧
    (∃ body : List JSNode, (detectJSFeatures body).map Occ.line = [2, 1]) := by
  refine ⟨fun body => jsEmit_names_sublist _, fun rules => cssEmit_names_sublist _, ?_⟩
  exact ⟨[JSNode.varDecl [⟨JSDeclInit.newE (some "WeakRef"), some 1⟩] (some 1),
          JSNode.varDecl [⟨JSDeclInit.newE (some "AbortController"), some 2⟩] (some 2)],
    by decide⟩

/-! ## Scan-loop lemmas -/

theorem mem_nameFilterApply {filter : Option String} {feats : List Occ} {feat : Occ}
    (h : feat ∈ nameFilterApply filter feats) : feat ∈ feats := by
  rcases filter with _ | f
  · exact h
  · simp only [nameFilterApply] at h
    split_ifs at h
    · exact List.mem_of_mem_filter h
    · exact h

theorem mem_processFile {reg : String → Option String} {filter : Option String}
    {file : String} {oc : FileOutcome} {r : Record}
    (h : r ∈ processFile reg filter file oc) :
    ∃ feats feat, dialectDetect file oc = some feats ∧ feat ∈ feats ∧
      r = classifyOcc reg file feat := by
  unfold processFile at h
  split_ifs at h
  · cases h
  · cases h
  · rcases hd : dialectDetect file oc with _ | detected
    · rw [hd] at h; cases h
    · rw [hd] at h
      obtain ⟨feat, hf, hr⟩ := List.mem_map.1 h
      exact ⟨detected, feat, rfl, mem_nameFilterApply hf, hr.symm⟩

theorem processFile_css_endsWith {reg : String → Option String} {file : String}
    {oc : FileOutcome} {r : Record}
    (h : r ∈ processFile reg (some "css") file oc) :
    strEndsWith r.file ".css" = true := by
  unfold processFile at h
  split_ifs at h with h1 h2
  · cases h
  · cases h
  · have hcss : strEndsWith file ".css" = true := by
      by_contra hc
      exact h2 ⟨rfl, by simpa using hc⟩
    rcases hd : dialectDetect file oc with _ | detected
    · rw [hd] at h; cases h
    · rw [hd] at h
      obtain ⟨feat, hf, hr⟩ := List.mem_map.1 h
      rw [← hr]
      exact hcss

/-! ## Claim theorems (third group) -/

/-- C5: scanning with the file-type filter `css` yields only records
whose file path ends in `.css`, and the report summary's `baseline` /
`non_baseline` counts equal the respective status counts over that
filtered record list. -/
theorem claim_C5 (reg : String → Option String) (files : List (String × FileOutcome)) :
    (∀ r ∈ scanFiles reg (some "css") files, strEndsWith r.file ".css" = true) ∧
    (buildOutput (scanFiles reg (some "css") files)).summary.baseline =
      ((scanFiles reg (some "css") files).filter (fun r => r.status == "baseline")).length ∧
    (buildOutput (scanFiles reg (some "css") files)).summary.non_baseline =
      ((scanFiles reg (some "css") files).filter (fun r => r.status == "non-baseline")).length := by
  refine ⟨?_, rfl, rfl⟩
  intro r hr
  rw [scanFiles] at hr
  obtain ⟨fp, hfp, hmem⟩ := List.mem_flatMap.1 hr
  exact processFile_css_endsWith hmem

/-- Witness for C5 on a one-file scan. -/
theorem claim_C5_witness :
    ((⟨"gap", "non-baseline", "a.css", 1⟩ : Record) ∈
      scanFiles (fun _ => none) (some "css")
        [("a.css", FileOutcome.cssAst [⟨CSSSelector.parsed [], [⟨"gap", "1rem", some 1⟩]⟩])]) ∧
    strEndsWith (⟨"gap", "non-baseline", "a.css", 1⟩ : Record).file ".css" = true :=
  ⟨by decide,
    (claim_C5 (fun _ => none)
      [("a.css", FileOutcome.cssAst [⟨CSSSelector.parsed [], [⟨"gap", "1rem", some 1⟩]⟩])]).1
      _ (by decide)⟩

/-- C7: a rule whose selector fails to parse contributes exactly what the
same rule with an empty (pseudo-class-free) parsed selector would: its
pseudo-class contribution is skipped, its declarations are still scanned,
and the rest of the stylesheet is unaffected; in particular a lone
failing-selector rule still reports its declaration-based features. -/
theorem claim_C7 (pre post : List CSSRule) (ds : List CSSDecl) (m : String) :
    detectCSSFeatures (pre ++ ⟨CSSSelector.parseFail m, ds⟩ :: post) =
      detectCSSFeatures (pre ++ ⟨CSSSelector.parsed [], ds⟩ :: post) ∧
    detectCSSFeatures [⟨CSSSelector.parseFail m, ds⟩] =
      cssEmit (ds.foldl cssDeclStep {}) := by
  constructor
  · simp only [detectCSSFeatures, List.foldl_append, List.foldl_cons]
    rfl
  · rfl

/-- C10: when the scan detects zero features across all processed files,
the report phase writes no output file — even when an output path option
was supplied — and emits only the informational message. -/
theorem claim_C10 (reg : String → Option String) (filter : Option String)
    (files : List (String × FileOutcome)) (outputPath : Option String) (fmt : String)
    (h : scanFiles reg filter files = []) :
    (reportPhase (scanFiles reg filter files) outputPath fmt).1 = none ∧
    (reportPhase (scanFiles reg filter files) outputPath fmt).2 =
      "No supported features detected." := by
  rw [h]
  exact ⟨rfl, rfl⟩

/-- Witness for C10 with an output path supplied. -/
theorem claim_C10_witness :
    scanFiles (fun _ => none) none [] = [] ∧
    (reportPhase (scanFiles (fun _ => none) none []) (some "report.json") "json").1 = none ∧
    (reportPhase (scanFiles (fun _ => none) none []) (some "report.json") "json").2 =
      "No supported features detected." :=
  ⟨rfl, (claim_C10 (fun _ => none) none [] (some "report.json") "json" rfl).1,
    (claim_C10 (fun _ => none) none [] (some "report.json") "json" rfl).2⟩

/-! ## CSV round-trip lemmas -/

theorem not_mem_cons_iff {α : Type} {a b : α} {l : List α} :
    a ∉ b :: l ↔ a ≠ b ∧ a ∉ l := by
  simp [List.mem_cons, not_or]

theorem escChars_of_noQuote (cs : List Char) (h : '"' ∉ cs) : escChars cs = cs := by
  induction cs with
  | nil => rfl
  | cons c t ih =>
    obtain ⟨hc, ht⟩ := not_mem_cons_iff.1 h
    simp only [escChars, if_neg (Ne.symm hc), List.singleton_append, List.cons.injEq, true_and]
    exact ih ht

theorem natCharsAux_digits (fuel : Nat) :
    ∀ (n : Nat), ∀ c ∈ natCharsAux fuel n, ∃ d, d < 10 ∧ c = Char.ofNat (48 + d) := by
  induction fuel with
  | zero => intro n c hc; cases hc
  | succ f ih =>
    intro n c hc
    match n with
    | 0 => cases hc
    | m + 1 =>
      simp only [natCharsAux, List.mem_append, List.mem_singleton] at hc
      rcases hc with h1 | h2
      · exact ih _ c h1
      · exact ⟨(m + 1) % 10, Nat.mod_lt _ (by omega), h2⟩

theorem digitChar_ne (d : Nat) (hd : d < 10) :
    Char.ofNat (48 + d) ≠ '\n' ∧ Char.ofNat (48 + d) ≠ '"' := by
  interval_cases d <;> exact ⟨by decide, by decide⟩

theorem natChars_ok (n : Nat) : '\n' ∉ natChars n ∧ '"' ∉ natChars n := by
  by_cases h0 : n = 0
  · subst h0
    exact ⟨by decide, by decide⟩
  · unfold natChars
    rw [if_neg h0]
    constructor
    · intro hmem
      obtain ⟨d, hd, hc⟩ := natCharsAux_digits n n _ hmem
      exact (digitChar_ne d hd).1 hc.symm
    · intro hmem
      obtain ⟨d, hd, hc⟩ := natCharsAux_digits n n _ hmem
      exact (digitChar_ne d hd).2 hc.symm

theorem takeWhile_noQuote (rest : List Char) (s : List Char) (h : '"' ∉ s) :
    (s ++ '"' :: rest).takeWhile (fun c => c != '"') = s ∧
    (s ++ '"' :: rest).dropWhile (fun c => c != '"') = '"' :: rest := by
  induction s with
  | nil => constructor <;> simp
  | cons c t ih =>
    obtain ⟨hc, ht⟩ := not_mem_cons_iff.1 h
    obtain ⟨ih1, ih2⟩ := ih ht
    have hcb : (c != '"') = true := by simp [Ne.symm hc]
    constructor
    · simp [List.takeWhile_cons, hcb, ih1]
    · simp [List.dropWhile_cons, hcb, ih2]

theorem parseQuotedField_quote (s : String) (h : '"' ∉ s.data) (rest : List Char) :
    parseQuotedField (quoteChars s ++ rest) = some (s.data, rest) := by
  have he : quoteChars s ++ rest = '"' :: (s.data ++ '"' :: rest) := by
    simp [quoteChars, escChars_of_noQuote s.data h]
  rw [he]
  obtain ⟨ht, hd⟩ := takeWhile_noQuote rest s.data h
  simp only [parseQuotedField, hd, ht]

theorem parseRowChars_row (r : Record) (h1 : '"' ∉ r.name.data)
    (h2 : '"' ∉ r.status.data) (h3 : '"' ∉ r.file.data) :
    parseRowChars (csvRowChars r) = some (recordTuple r) := by
  simp only [parseRowChars, csvRowChars,
    parseQuotedField_quote r.name h1, parseQuotedField_quote r.status h2,
    parseQuotedField_quote r.file h3, Option.some_bind, expectComma, recordTuple]

theorem quoteChars_noNL (s : String) (hs : okField s) : '\n' ∉ quoteChars s := by
  intro hmem
  rcases List.mem_cons.1 hmem with h | h
  · exact absurd h (by decide)
  · rw [escChars_of_noQuote s.data hs.1] at h
    rcases List.mem_append.1 h with h | h
    · exact hs.2 h
    · exact absurd (List.mem_singleton.1 h) (by decide)

theorem csvRowChars_noNL (r : Record) (h1 : okField r.name) (h2 : okField r.status)
    (h3 : okField r.file) : '\n' ∉ csvRowChars r := by
  intro hmem
  rcases List.mem_append.1 hmem with h | h
  · exact quoteChars_noNL r.name h1 h
  · rcases List.mem_cons.1 h with h | h
    · exact absurd h (by decide)
    · rcases List.mem_append.1 h with h | h
      · exact quoteChars_noNL r.status h2 h
      · rcases List.mem_cons.1 h with h | h
        · exact absurd h (by decide)
        · rcases List.mem_append.1 h with h | h
          · exact quoteChars_noNL r.file h3 h
          · rcases List.mem_cons.1 h with h | h
            · exact absurd h (by decide)
            · exact (natChars_ok r.line).1 h

theorem csvHeaderChars_noNL : '\n' ∉ csvHeaderChars := by decide

theorem splitOnChar_sepFree (sep : Char) (x : List Char) (h : sep ∉ x) :
    splitOnChar sep x = [x] := by
  induction x with
  | nil => rfl
  | cons c t ih =>
    obtain ⟨hc, ht⟩ := not_mem_cons_iff.1 h
    simp only [splitOnChar, if_neg (Ne.symm hc), ih ht]

theorem splitOnChar_append (sep : Char) (x : List Char) (h : sep ∉ x) (r : List Char) :
    splitOnChar sep (x ++ sep :: r) = x :: splitOnChar sep r := by
  induction x with
  | nil => simp [splitOnChar]
  | cons c t ih =>
    obtain ⟨hc, ht⟩ := not_mem_cons_iff.1 h
    show splitOnChar sep (c :: (t ++ sep :: r)) = (c :: t) :: splitOnChar sep r
    rw [splitOnChar, if_neg (Ne.symm hc), ih ht]

theorem splitOnChar_joinSep (sep : Char) (xs : List (List Char)) (hne : xs ≠ [])
    (h : ∀ x ∈ xs, sep ∉ x) : splitOnChar sep (joinSep sep xs) = xs := by
  induction xs with
  | nil => exact absurd rfl hne
  | cons x t ih =>
    cases t with
    | nil => exact splitOnChar_sepFree sep x (h x (List.mem_cons_self x []))
    | cons y t2 =>
      have hx : sep ∉ x := h x (List.mem_cons_self ..)
      have hrest := ih (by simp) (fun z hz => h z (List.mem_cons_of_mem _ hz))
      show splitOnChar sep (x ++ sep :: joinSep sep (y :: t2)) = x :: y :: t2
      rw [splitOnChar_append sep x hx, hrest]

theorem parseRows_map (results : List Record)
    (h : ∀ r ∈ results, okField r.name ∧ okField r.status ∧ okField r.file) :
    parseRows (results.map csvRowChars) = some (results.map recordTuple) := by
  induction results with
  | nil => rfl
  | cons r t ih =>
    obtain ⟨h1, h2, h3⟩ := h r (List.mem_cons_self ..)
    have ht := ih (fun z hz => h z (List.mem_cons_of_mem _ hz))
    simp only [List.map_cons, parseRows, parseRowChars_row r h1.1 h2.1 h3.1, ht]

theorem csv_roundTrip (results : List Record)
    (h : ∀ r ∈ results, okField r.name ∧ okField r.status ∧ okField r.file) :
    parseCSV (csvExport results) = some (results.map recordTuple) := by
  have hsplit : splitOnChar '\n' (joinSep '\n' (csvHeaderChars :: results.map csvRowChars)) =
      csvHeaderChars :: results.map csvRowChars := by
    refine splitOnChar_joinSep _ _ (by simp) ?_
    intro x hx
    rcases List.mem_cons.1 hx with rfl | hx2
    · exact csvHeaderChars_noNL
    · obtain ⟨r, hr, rfl⟩ := List.mem_map.1 hx2
      obtain ⟨h1, h2, h3⟩ := h r hr
      exact csvRowChars_noNL r h1 h2 h3
  unfold parseCSV csvExport
  rw [show (String.mk (joinSep '\n' (csvHeaderChars :: results.map csvRowChars))).data =
      joinSep '\n' (csvHeaderChars :: results.map csvRowChars) from rfl]
  rw [hsplit]
  show (if csvHeaderChars = csvHeaderChars then parseRows (results.map csvRowChars) else none) = _
  rw [if_pos rfl]
  exact parseRows_map results h

/-! ## Record hygiene of scan outputs -/

theorem classifyStatus_cases (reg : String → Option String) (k : String) :
    classifyStatus reg k = "baseline" ∨ classifyStatus reg k = "non-baseline" := by
  unfold classifyStatus
  split_ifs <;> simp

theorem dialectDetect_names {file : String} {oc : FileOutcome} {feats : List Occ}
    (hd : dialectDetect file oc = some feats) :
    ∀ feat ∈ feats, feat.name ∈ jsCatalogNames ∨ feat.name ∈ cssCatalogNames := by
  intro feat hfeat
  unfold dialectDetect at hd
  split_ifs at hd
  · rcases oc with m | m | body | rules
    · exact Option.noConfusion hd
    · exact Option.noConfusion hd
    · have he : detectJSFeatures body = feats := Option.some.inj hd
      subst he
      exact Or.inl ((jsEmit_names_sublist _).subset (List.mem_map_of_mem Occ.name hfeat))
    · exact Option.noConfusion hd
  · rcases oc with m | m | body | rules
    · exact Option.noConfusion hd
    · exact Option.noConfusion hd
    · exact Option.noConfusion hd
    · have he : detectCSSFeatures rules = feats := Option.some.inj hd
      subst he
      exact Or.inr ((cssEmit_names_sublist _).subset (List.mem_map_of_mem Occ.name hfeat))

theorem scanFiles_okFields {reg : String → Option String} {filter : Option String}
    {files : List (String × FileOutcome)}
    (hfiles : ∀ fp ∈ files, okField fp.1) :
    ∀ r ∈ scanFiles reg filter files, okField r.name ∧ okField r.status ∧ okField r.file := by
  intro r hr
  rw [scanFiles] at hr
  obtain ⟨fp, hfp, hmem⟩ := List.mem_flatMap.1 hr
  obtain ⟨feats, feat, hd, hfeat, rfl⟩ := mem_processFile hmem
  refine ⟨?_, ?_, hfiles fp hfp⟩
  · have hname := dialectDetect_names hd feat hfeat
    have hok : ∀ nm ∈ jsCatalogNames, okField nm := by decide
    have hok2 : ∀ nm ∈ cssCatalogNames, okField nm := by decide
    rcases hname with h | h
    · exact hok _ h
    · exact hok2 _ h
  · show okField (classifyStatus reg feat.key)
    rcases classifyStatus_cases reg feat.key with h | h <;> rw [h] <;> decide

/-! ## Claim theorem C6 -/

/-- C6: for every scanned result set (over file names free of quotes and
newlines), exporting as CSV and as JSON is round-trip consistent:
parsing the produced CSV back into records — the line number read back
as text, i.e. ignoring numeric type representation — yields exactly the
(name, status, file, line) tuples of the JSON report's `features` array,
in the same order. -/
theorem claim_C6 (reg : String → Option String) (filter : Option String)
    (files : List (String × FileOutcome))
    (hfiles : ∀ fp ∈ files, okField fp.1) :
    parseCSV (csvExport (scanFiles reg filter files)) =
      some ((buildOutput (scanFiles reg filter files)).features.map recordTuple) :=
  csv_roundTrip _ (scanFiles_okFields hfiles)

/-- Witness for C6 on a one-file scan whose record is classified
`baseline` by a registry reporting the `high` tier. -/
theorem claim_C6_witness :
    (∀ fp ∈ ([("a.css", FileOutcome.cssAst
        [⟨CSSSelector.parsed [], [⟨"gap", "1rem", some 1⟩]⟩])] :
          List (String × FileOutcome)), okField fp.1) ∧
    parseCSV (csvExport (scanFiles (fun _ => some "high") none
        [("a.css", FileOutcome.cssAst [⟨CSSSelector.parsed [], [⟨"gap", "1rem", some 1⟩]⟩])])) =
      some ((buildOutput (scanFiles (fun _ => some "high") none
        [("a.css", FileOutcome.cssAst [⟨CSSSelector.parsed [], [⟨"gap", "1rem", some 1⟩]⟩])])).features.map
          recordTuple) :=
  ⟨by decide,
    claim_C6 (fun _ => some "high") none
      [("a.css", FileOutcome.cssAst [⟨CSSSelector.parsed [], [⟨"gap", "1rem", some 1⟩]⟩])]
      (by decide)⟩
